import Mathlib

/-!
Verification of the C boundary shim (`wabt_shim.cc`) of the wabt-rs binding.

The shim is a thin `extern "C"` layer over the external wabt engine.  We embed
the shim's own code faithfully: C unions become a 64-bit natural-number payload
read and written modulo the accessed field's width, pointers into engine-owned
storage become indices into an explicit list-valued heap, and the engine's own
operations (which are not part of this repository) are modelled from the spec
as opaque function parameters or abstract data.  Machine integers are `Nat` or
`Int` with explicit reduction modulo `2^32` / `2^64` where the C code can wrap.
-/

/-- Boundary value-type tag (`enum ValueType` in the shim: I32 = -0x01,
I64 = -0x02, F32 = -0x03, F64 = -0x04). -/
inductive ValueType where
  | I32
  | I64
  | F32
  | F64
  deriving DecidableEq, Repr

/-- The numeric discriminant of a boundary tag, as in the C enum. -/
def ValueType.tagValue : ValueType → Int
  | .I32 => -0x01
  | .I64 => -0x02
  | .F32 => -0x03
  | .F64 => -0x04

/-- Boundary `TypedValue`: a tag plus an 8-byte union
`{ uint32_t i32; uint64_t i64; uint32_t f32_bits; uint64_t f64_bits; }`.
The union's storage is modelled as a natural number below `2^64`; reading a
32-bit field yields the value modulo `2^32`, reading a 64-bit field the value
modulo `2^64`. -/
structure TypedValue where
  type : ValueType
  value : Nat
  deriving DecidableEq, Repr

instance : Inhabited TypedValue := ⟨⟨.I32, 0⟩⟩

/-- Width bound of the union field selected by a boundary tag: the `i32` and
`f32_bits` fields are `uint32_t`, the `i64` and `f64_bits` fields `uint64_t`. -/
def unionBound : ValueType → Nat
  | .I32 => 4294967296
  | .F32 => 4294967296
  | .I64 => 18446744073709551616
  | .F64 => 18446744073709551616

/-- Modelled from the spec: the engine's internal value-kind enum
(`wabt::Type`).  The engine (an external collaborator, not part of this
repository) has kinds beyond the four numeric ones the boundary supports;
we include representative extra kinds so the shim's `default:` branch is
meaningful. -/
inductive WabtType where
  | I32
  | I64
  | F32
  | F64
  | V128
  | Anyfunc
  | Func
  | Void
  | Any
  deriving DecidableEq, Repr

/-- Whether an engine kind is one of the four the boundary supports. -/
def WabtType.isSupported : WabtType → Bool
  | .I32 => true
  | .I64 => true
  | .F32 => true
  | .F64 => true
  | _ => false

/-- Modelled from the spec: the engine's internal typed value
(`wabt::interp::TypedValue`), a kind plus a value union with the same four
numeric fields as the boundary union (read/written by the shim as raw bits). -/
structure WabtTypedValue where
  type : WabtType
  value : Nat
  deriving DecidableEq, Repr

instance : Inhabited WabtTypedValue := ⟨⟨.I32, 0⟩⟩

/-- Width bound of the engine union field selected by an engine kind
(32-bit for `I32`/`F32`, 64-bit otherwise). -/
def wabtUnionBound : WabtType → Nat
  | .I32 => 4294967296
  | .F32 => 4294967296
  | _ => 18446744073709551616

/-- `convert_typed_value_ffi_to_wabt`: decode a boundary `TypedValue` into the
engine representation.  Each of the four tags copies the matching union field
verbatim (raw bits, no arithmetic conversion); a 32-bit field read sees the
payload modulo `2^32`. -/
def convert_typed_value_ffi_to_wabt (ffi : TypedValue) : WabtTypedValue :=
  match ffi.type with
  | .I32 => ⟨.I32, ffi.value % 4294967296⟩
  | .I64 => ⟨.I64, ffi.value % 18446744073709551616⟩
  | .F32 => ⟨.F32, ffi.value % 4294967296⟩
  | .F64 => ⟨.F64, ffi.value % 18446744073709551616⟩

/-- `convert_typed_value_wabt_to_ffi`: encode an engine typed value into the
boundary representation.  The four supported kinds copy the matching union
field verbatim; any other kind hits the `default: assert(0)` branch, modelled
as `none` (fatal abort, no boundary value is produced). -/
def convert_typed_value_wabt_to_ffi (w : WabtTypedValue) : Option TypedValue :=
  match w.type with
  | .I32 => some ⟨.I32, w.value % 4294967296⟩
  | .I64 => some ⟨.I64, w.value % 18446744073709551616⟩
  | .F32 => some ⟨.F32, w.value % 4294967296⟩
  | .F64 => some ⟨.F64, w.value % 18446744073709551616⟩
  | _ => none

/-- The two-valued boundary result code (`wabt::Result::Enum`). -/
inductive ResultEnum where
  | Ok
  | Error
  deriving DecidableEq, Repr

/-- Modelled from the spec: the engine's interpreter result
(`wabt::interp::Result`, not part of this repository).  `Ok` means the call
completed without trapping and with a matching signature; the remaining
constructors stand for the engine's trap / export-not-found /
signature-mismatch outcomes. -/
inductive InterpResult where
  | Ok
  | Trap
  | UnknownExport
  | SignatureMismatch
  deriving DecidableEq, Repr

/-- Modelled from the spec: the engine's `wabt::interp::ExecResult` — a status
plus the ordered sequence of return values of the call. -/
structure ExecResult where
  result : InterpResult
  values : List WabtTypedValue
  deriving DecidableEq, Repr

instance : Inhabited ExecResult := ⟨⟨.Ok, []⟩⟩

/-- Modelled from the spec: an opaque engine module handle
(`wabt::interp::Module`; named `InterpModule` here because `Module` is taken
by the ambient library). -/
structure InterpModule where
  id : Nat
  deriving DecidableEq, Repr

/-- Modelled from the spec: an opaque engine defined-module handle
(`wabt::interp::DefinedModule`), produced by binary decoding. -/
structure DefinedModule where
  id : Nat
  deriving DecidableEq, Repr

/-- Modelled from the spec: an engine environment
(`wabt::interp::Environment`), the namespace aggregating loaded modules. -/
structure Environment where
  modules : List DefinedModule
  deriving DecidableEq, Repr

/-- Modelled from the spec: the caller-owned errors sink
(`wabt::ErrorHandlerBuffer`), an append-only accumulator of diagnostics. -/
abbrev ErrorSink : Type := List String

/-- Modelled from the spec: an opaque parsed script produced by the engine's
text parser (`wabt::Script`). -/
structure Script where
  id : Nat
  deriving DecidableEq, Repr

/-- Modelled from the spec: an opaque lexer handle (`wabt::WastLexer`). -/
structure WastLexer where
  id : Nat
  deriving DecidableEq, Repr

/-- Modelled from the spec: the engine's executor
(`wabt::interp::Executor`).  Its observable behaviour at this boundary is
`RunExportByName`, which looks the export up by name, runs it to completion or
to a trap, and always produces an `ExecResult` whose status records success,
trap, export-not-found, or signature mismatch. -/
structure Executor where
  RunExportByName : InterpModule → String → List WabtTypedValue → ExecResult

/-- Binary-reader options (`wabt::ReadBinaryOptions`); the shim only ever sets
the `read_debug_names` field, so only it is modelled. -/
structure ReadBinaryOptions where
  read_debug_names : Bool
  deriving DecidableEq, Repr

/-- Modelled from the spec: the engine's binary decoder `ReadBinaryInterp`
(not part of this repository).  Given the environment, the raw bytes and
size, the options and the caller's sink, it returns a result code, the sink
with its appended diagnostics, and the decoded module written to the
out-module slot (meaningful only on success). -/
def EngineReadBinary : Type :=
  Environment → List Nat → Nat → ReadBinaryOptions → ErrorSink →
    ResultEnum × ErrorSink × Option DefinedModule

/-- Modelled from the spec: the engine's script-level name-resolution pass
`ResolveNamesScript` (not part of this repository): it mutates the script in
place, appends diagnostics to the sink and returns a result code. -/
def EngineResolveNamesScript : Type :=
  WastLexer → Script → ErrorSink → ResultEnum × ErrorSink

/-- `wabt_resolve_names_script`: the shim forwards the lexer, script and sink
to the engine's `ResolveNamesScript` and returns its result unchanged. -/
def wabt_resolve_names_script (ResolveNamesScript : EngineResolveNamesScript)
    (lexer : WastLexer) (script : Script) (error_handler : ErrorSink) :
    ResultEnum × ErrorSink :=
  ResolveNamesScript lexer script error_handler

/-- `wabt_interp_create_env`: allocates a new, empty environment. -/
def wabt_interp_create_env : Environment :=
  ⟨[]⟩

/-- `wabt_interp_read_binary`: default-construct `ReadBinaryOptions`, set its
`read_debug_names` field from the caller's `int` flag (C `int` to `bool`:
nonzero is true), call `ReadBinaryInterp` once with the caller's environment,
buffer, sink and out-module slot, and return its result. -/
def wabt_interp_read_binary (ReadBinaryInterp : EngineReadBinary)
    (env : Environment) (data : List Nat) (size : Nat)
    (read_debug_names : Int) (error_handler : ErrorSink) :
    ResultEnum × ErrorSink × Option DefinedModule :=
  ReadBinaryInterp env data size ⟨read_debug_names != 0⟩ error_handler

/-- Two's-complement wraparound of a 32-bit signed `int` (the shim's loop
index `int i`; signed overflow is undefined behaviour in C — we model the
wraparound every mainstream implementation performs). -/
def wrap32 (x : Int) : Int :=
  (x + 2147483648) % 4294967296 - 2147483648

/-- Conversion of a 32-bit signed `int` to `size_t` for the comparison
`i < args_len` (value modulo `2^64`). -/
def intToSizeT (x : Int) : Nat :=
  (x % 18446744073709551616).toNat

/-- The argument-marshalling loop of `wabt_interp_executor_run_export`:
`for (int i = 0; i < args_len; i++) args.push_back(convert(args_data[i]));`.
The index is a 32-bit signed `int` compared against a `size_t` length (the
`int` is converted to `size_t` by the usual arithmetic conversions) and
incremented with 32-bit wraparound.  Fuel `args_len + 1` is provided by the
caller; the loop never consumes more than `args_len` iterations for any
`size_t` length, so the fuel-exhausted branch (returning the accumulator) is
unreachable. -/
def runExportLoop : Nat → Int → List TypedValue → Nat → List WabtTypedValue →
    List WabtTypedValue
  | 0, _, _, _, acc => acc
  | fuel + 1, i, args_data, args_len, acc =>
    if intToSizeT i < args_len then
      runExportLoop fuel (wrap32 (i + 1)) args_data args_len
        (acc ++ [convert_typed_value_ffi_to_wabt (args_data.getD i.toNat default)])
    else
      acc

/-- `wabt_interp_executor_run_export`: marshal the `args_len` boundary
arguments into an engine vector with the `for` loop, run the export by name,
and allocate (`new`) a heap `ExecResult` holding a copy of the engine's
result.  The engine-owned heap of allocated results is modelled as a list; a
handle is an index into it; the returned handle always points at the freshly
allocated copy. -/
def wabt_interp_executor_run_export (exec : Executor) (module : InterpModule)
    (export_name : String) (args_data : List TypedValue) (args_len : Nat)
    (heap : List ExecResult) : Nat × List ExecResult :=
  let args := runExportLoop (args_len + 1) 0 args_data args_len []
  let exec_result := exec.RunExportByName module export_name args
  (heap.length, heap ++ [exec_result])

/-- `wabt_interp_exec_result_get_result`: `Ok` when the stored interpreter
result equals the engine's `Ok`, `Error` otherwise. -/
def wabt_interp_exec_result_get_result (result : ExecResult) : ResultEnum :=
  if result.result = InterpResult.Ok then
    ResultEnum.Ok
  else
    ResultEnum.Error

/-- `wabt_interp_exec_result_get_return_size`: `result->values.size()`. -/
def wabt_interp_exec_result_get_return_size (result : ExecResult) : Nat :=
  result.values.length

/-- `wabt_interp_exec_result_get_return`: encode `result->values[index]`
through the codec (the vector access is in bounds by the caller contract). -/
def wabt_interp_exec_result_get_return (result : ExecResult) (index : Nat) :
    Option TypedValue :=
  convert_typed_value_wabt_to_ffi (result.values.getD index default)

/-- Modelled from the spec: an internal fault the engine could raise as a
C++ exception during a boundary call (for instance an allocation failure or
an internal logic error surfacing as a throw). -/
inductive EngineFault where
  | badAlloc
  | logicError
  deriving DecidableEq, Repr

/-- Modelled from the spec: an executor whose `RunExportByName` may raise an
engine-internal fault as an exception instead of returning an `ExecResult`. -/
structure ExecutorExc where
  RunExportByName : InterpModule → String → List WabtTypedValue →
    Except EngineFault ExecResult

/-- `wabt_interp_executor_run_export` against a possibly-throwing engine.
The shim body contains no `try`/`catch`, so an exception raised by
`RunExportByName` simply propagates out of the `extern "C"` function: the
embedding sequences the engine call with `bind` and installs no handler. -/
def wabt_interp_executor_run_export_exc (exec : ExecutorExc)
    (module : InterpModule) (export_name : String)
    (args_data : List TypedValue) (args_len : Nat)
    (heap : List ExecResult) : Except EngineFault (Nat × List ExecResult) := do
  let args := runExportLoop (args_len + 1) 0 args_data args_len []
  let exec_result ← exec.RunExportByName module export_name args
  pure (heap.length, heap ++ [exec_result])

/-- The complete `extern "C"` surface of the shim: the function names the
boundary exports, transcribed from the `extern "C"` block of
`wabt_shim.cc`. -/
def boundaryExports : List String :=
  [ "wabt_resolve_names_script"
  , "wabt_interp_create_env"
  , "wabt_interp_destroy_env"
  , "wabt_interp_read_binary"
  , "wabt_interp_create_executor"
  , "wabt_interp_destroy_executor"
  , "wabt_interp_executor_run_export"
  , "wabt_interp_exec_result_get_result"
  , "wabt_interp_exec_result_get_return_size"
  , "wabt_interp_exec_result_get_return"
  , "wabt_interp_destroy_exec_result" ]

/-- An executor that returns its marshalled argument vector as the result
values, with `Ok` status; used to observe exactly which vector the shim hands
to the engine. -/
def echoExecutor : Executor :=
  ⟨fun _ _ args => ⟨InterpResult.Ok, args⟩⟩

/-- The mathematical value of the shim's loop index after `k` increments from
zero, as the 32-bit signed `int` holds it: `k` itself while `k < 2^31`, and
the wrapped (negative) representative afterwards. -/
def intRepr (k : Nat) : Int :=
  if k < 2147483648 then (k : Int) else (k : Int) - 4294967296

/-- `wabt_interp_exec_result_get_result` as a state transformer over the
heap of allocated `ExecResult`s: dereference the handle and read the status.
The body only reads, so the heap is returned unchanged. -/
def wabt_interp_exec_result_get_result_st (handle : Nat)
    (heap : List ExecResult) : ResultEnum × List ExecResult :=
  (wabt_interp_exec_result_get_result (heap.getD handle default), heap)

/-- `wabt_interp_exec_result_get_return_size` as a state transformer over the
heap: dereference the handle and read the vector length. -/
def wabt_interp_exec_result_get_return_size_st (handle : Nat)
    (heap : List ExecResult) : Nat × List ExecResult :=
  (wabt_interp_exec_result_get_return_size (heap.getD handle default), heap)

/-- `wabt_interp_exec_result_get_return` as a state transformer over the
heap: dereference the handle and encode the indexed value. -/
def wabt_interp_exec_result_get_return_st (handle : Nat) (index : Nat)
    (heap : List ExecResult) : Option TypedValue × List ExecResult :=
  (wabt_interp_exec_result_get_return (heap.getD handle default) index, heap)

theorem intRepr_zero : intRepr 0 = 0 := by
  unfold intRepr
  norm_num

theorem intToSizeT_intRepr_lt {k : Nat} (h : k < 2147483648) :
    intToSizeT (intRepr k) = k := by
  unfold intToSizeT intRepr
  rw [if_pos h]
  omega

theorem intToSizeT_intRepr_top :
    intToSizeT (intRepr 2147483648) = 18446744071562067968 := by
  unfold intToSizeT intRepr
  norm_num
  rfl

theorem wrap32_intRepr_succ {k : Nat} (h : k < 2147483648) :
    wrap32 (intRepr k + 1) = intRepr (k + 1) := by
  unfold wrap32 intRepr
  rw [if_pos h]
  by_cases h2 : k + 1 < 2147483648
  · rw [if_pos h2]
    omega
  · rw [if_neg h2]
    omega

theorem toNat_intRepr_lt {k : Nat} (h : k < 2147483648) :
    (intRepr k).toNat = k := by
  unfold intRepr
  rw [if_pos h]
  omega

/-- In-range behaviour of the marshalling loop: as long as the length does not
exceed `2^31`, the loop starting at index `k` with `k + j = args_len` appends
the conversions of the remaining `j` arguments, in order. -/
theorem runExportLoop_spec (args_data : List TypedValue) (args_len : Nat)
    (hlen : args_len ≤ 2147483648) (hargs : args_data.length = args_len) :
    ∀ (j k : Nat) (acc : List WabtTypedValue) (fuel : Nat),
      k + j = args_len → j + 1 ≤ fuel →
      runExportLoop fuel (intRepr k) args_data args_len acc =
        acc ++ (args_data.drop k).map convert_typed_value_ffi_to_wabt := by
  intro j
  induction j with
  | zero =>
    intro k acc fuel hk hfuel
    obtain ⟨f, rfl⟩ : ∃ f, fuel = f + 1 := ⟨fuel - 1, by omega⟩
    rw [runExportLoop]
    have hstop : ¬ intToSizeT (intRepr k) < args_len := by
      by_cases hcase : k < 2147483648
      · rw [intToSizeT_intRepr_lt hcase]
        omega
      · have hk2 : k = 2147483648 := by omega
        rw [hk2, intToSizeT_intRepr_top]
        omega
    rw [if_neg hstop]
    have : args_data.drop k = [] := by
      apply List.drop_eq_nil_of_le
      omega
    rw [this]
    simp
  | succ j ih =>
    intro k acc fuel hk hfuel
    obtain ⟨f, rfl⟩ : ∃ f, fuel = f + 1 := ⟨fuel - 1, by omega⟩
    have hk31 : k < 2147483648 := by omega
    have hkl : k < args_data.length := by omega
    rw [runExportLoop]
    rw [if_pos (by rw [intToSizeT_intRepr_lt hk31]; omega)]
    rw [wrap32_intRepr_succ hk31, toNat_intRepr_lt hk31]
    rw [ih (k + 1) _ f (by omega) (by omega)]
    rw [List.getD_eq_getElem _ _ hkl, List.append_assoc]
    rw [List.drop_eq_getElem_cons hkl]
    simp
    have hkl2 : k < (List.map convert_typed_value_ffi_to_wabt args_data).length := by
      simpa using hkl
    rw [List.drop_eq_getElem_cons hkl2, List.getElem_map]

/-- Overlength behaviour of the marshalling loop: when the `size_t` length
exceeds `2^31` (but stays below `2^64 - 2^31`), the signed 32-bit index wraps
to `-2^31` after `2^31` iterations, its `size_t` conversion jumps to
`2^64 - 2^31 ≥ args_len`, and the loop exits having marshalled only the first
`2^31` arguments. -/
theorem runExportLoop_wrap (args_data : List TypedValue) (args_len : Nat)
    (h1 : 2147483648 < args_len) (h2 : args_len ≤ 18446744071562067968)
    (hargs : 2147483648 ≤ args_data.length) :
    ∀ (j k : Nat) (acc : List WabtTypedValue) (fuel : Nat),
      k + j = 2147483648 → j + 1 ≤ fuel →
      runExportLoop fuel (intRepr k) args_data args_len acc =
        acc ++ ((args_data.drop k).take j).map convert_typed_value_ffi_to_wabt := by
  intro j
  induction j with
  | zero =>
    intro k acc fuel hk hfuel
    obtain ⟨f, rfl⟩ : ∃ f, fuel = f + 1 := ⟨fuel - 1, by omega⟩
    rw [runExportLoop]
    have hk2 : k = 2147483648 := by omega
    rw [hk2, if_neg (by rw [intToSizeT_intRepr_top]; omega)]
    simp
  | succ j ih =>
    intro k acc fuel hk hfuel
    obtain ⟨f, rfl⟩ : ∃ f, fuel = f + 1 := ⟨fuel - 1, by omega⟩
    have hk31 : k < 2147483648 := by omega
    have hkl : k < args_data.length := by omega
    rw [runExportLoop]
    rw [if_pos (by rw [intToSizeT_intRepr_lt hk31]; omega)]
    rw [wrap32_intRepr_succ hk31, toNat_intRepr_lt hk31]
    rw [ih (k + 1) _ f (by omega) (by omega)]
    rw [List.getD_eq_getElem _ _ hkl, List.append_assoc]
    rw [List.drop_eq_getElem_cons hkl, List.take_succ_cons, List.map_cons]
    simp

/-- C1: boundary-to-engine-to-boundary and engine-to-boundary-to-engine
conversion of any typed value of one of the four supported kinds is the
identity on the tag and on the raw payload bits (NaN payloads included):
the codec copies bits and never converts arithmetically. -/
theorem typed_value_roundtrip_bitexact :
    (∀ v : TypedValue, v.value < unionBound v.type →
      convert_typed_value_wabt_to_ffi (convert_typed_value_ffi_to_wabt v) =
        some v) ∧
    (∀ w : WabtTypedValue, w.type.isSupported = true →
      w.value < wabtUnionBound w.type →
      ∃ v : TypedValue, convert_typed_value_wabt_to_ffi w = some v ∧
        convert_typed_value_ffi_to_wabt v = w) := by
  constructor
  · rintro ⟨t, val⟩ h
    cases t <;> simp only [unionBound] at h <;>
      simp [convert_typed_value_ffi_to_wabt, convert_typed_value_wabt_to_ffi,
        Nat.mod_eq_of_lt h]
  · rintro ⟨t, val⟩ hsup h
    cases t
    all_goals try (simp [WabtType.isSupported] at hsup)
    all_goals refine ⟨_, rfl, ?_⟩
    all_goals simp only [wabtUnionBound] at h
    all_goals simp [convert_typed_value_ffi_to_wabt, Nat.mod_eq_of_lt h]

/-- Witness for C1: the round trip preserves an F64 quiet-NaN payload
(`0x7ff8000000000001`) and an F32 signalling-NaN payload (`0x7fc00001`)
bit for bit. -/
theorem typed_value_roundtrip_bitexact_witness :
    convert_typed_value_wabt_to_ffi
        (convert_typed_value_ffi_to_wabt ⟨ValueType.F64, 9221120237041090561⟩) =
      some ⟨ValueType.F64, 9221120237041090561⟩ ∧
    convert_typed_value_wabt_to_ffi
        (convert_typed_value_ffi_to_wabt ⟨ValueType.F32, 2143289345⟩) =
      some ⟨ValueType.F32, 2143289345⟩ :=
  ⟨typed_value_roundtrip_bitexact.1 ⟨ValueType.F64, 9221120237041090561⟩ (by decide),
   typed_value_roundtrip_bitexact.1 ⟨ValueType.F32, 2143289345⟩ (by decide)⟩

/-- C6: engine-to-boundary encoding of a value whose kind is outside the four
supported kinds reaches the `default: assert(0)` branch and aborts without
producing a boundary value; for the four supported kinds the abort branch is
unreachable and a boundary value is always produced. -/
theorem encode_aborts_on_unsupported_kind :
    ∀ w : WabtTypedValue,
      (w.type.isSupported = false → convert_typed_value_wabt_to_ffi w = none) ∧
      (w.type.isSupported = true →
        (convert_typed_value_wabt_to_ffi w).isSome = true) := by
  rintro ⟨t, val⟩
  cases t <;> simp [WabtType.isSupported, convert_typed_value_wabt_to_ffi]

/-- Witness for C6: encoding a V128-kinded engine value aborts (`none`),
while encoding an I64-kinded one succeeds. -/
theorem encode_aborts_on_unsupported_kind_witness :
    convert_typed_value_wabt_to_ffi ⟨WabtType.V128, 0⟩ = none ∧
    (convert_typed_value_wabt_to_ffi ⟨WabtType.I64, 5⟩).isSome = true :=
  ⟨(encode_aborts_on_unsupported_kind ⟨WabtType.V128, 0⟩).1 rfl,
   (encode_aborts_on_unsupported_kind ⟨WabtType.I64, 5⟩).2 rfl⟩

/-- C3: `wabt_interp_exec_result_get_result` returns `Ok` exactly when the
stored engine result is the engine's `Ok`; every other engine result maps to
`Error`. -/
theorem exec_result_status_ok_iff :
    ∀ r : ExecResult,
      (wabt_interp_exec_result_get_result r = ResultEnum.Ok ↔
        r.result = InterpResult.Ok) ∧
      (wabt_interp_exec_result_get_result r = ResultEnum.Error ↔
        r.result ≠ InterpResult.Ok) := by
  intro r
  by_cases h : r.result = InterpResult.Ok <;>
    simp [wabt_interp_exec_result_get_result, h]

/-- C5: `wabt_interp_exec_result_get_return_size` is the length of the
result's ordered return-value sequence, and for every in-range index
`wabt_interp_exec_result_get_return` is the codec encoding of the indexed
value of that sequence, in the order the engine produced. -/
theorem exec_result_accessors_spec :
    ∀ r : ExecResult,
      wabt_interp_exec_result_get_return_size r = r.values.length ∧
      ∀ (i : Nat) (h : i < r.values.length),
        wabt_interp_exec_result_get_return r i =
          convert_typed_value_wabt_to_ffi (r.values.get ⟨i, h⟩) := by
  intro r
  refine ⟨rfl, ?_⟩
  intro i h
  unfold wabt_interp_exec_result_get_return
  rw [List.getD_eq_getElem _ _ h]
  rfl

/-- Witness for C5: a one-value result reports count 1 and its value 0 is the
encoding of the stored F32 NaN value. -/
theorem exec_result_accessors_spec_witness :
    wabt_interp_exec_result_get_return ⟨InterpResult.Ok, [⟨WabtType.F32, 2143289344⟩]⟩ 0 =
      convert_typed_value_wabt_to_ffi
        (([⟨WabtType.F32, 2143289344⟩] : List WabtTypedValue).get ⟨0, by decide⟩) :=
  (exec_result_accessors_spec ⟨InterpResult.Ok, [⟨WabtType.F32, 2143289344⟩]⟩).2 0
    (by decide)

/-- C2: `wabt_interp_executor_run_export` always allocates a fresh
`ExecResult` on the engine heap and returns a handle to it — for every
executor behaviour (export found or not, signature mismatch, trap), the
returned handle is valid (never null) and designates exactly the `ExecResult`
the engine produced, so failure is observable only through its status
field. -/
theorem run_export_returns_valid_handle :
    ∀ (exec : Executor) (module : InterpModule) (export_name : String)
      (args_data : List TypedValue) (args_len : Nat) (heap : List ExecResult),
      (wabt_interp_executor_run_export exec module export_name args_data
          args_len heap).1 <
        (wabt_interp_executor_run_export exec module export_name args_data
          args_len heap).2.length ∧
      (wabt_interp_executor_run_export exec module export_name args_data
          args_len heap).2.getD
        (wabt_interp_executor_run_export exec module export_name args_data
          args_len heap).1 default =
        exec.RunExportByName module export_name
          (runExportLoop (args_len + 1) 0 args_data args_len []) := by
  intro exec module export_name args_data args_len heap
  unfold wabt_interp_executor_run_export
  constructor
  · simp
  · simp [List.getD_eq_getElem]

/-- C4 as amended: for argument counts up to `2^31` (the largest count the
`int` loop index traverses correctly), `run_export` hands the engine exactly
the caller's arguments, decoded elementwise by the codec in order. -/
theorem run_export_marshals_args_in_order :
    ∀ (exec : Executor) (module : InterpModule) (export_name : String)
      (args_data : List TypedValue) (heap : List ExecResult),
      args_data.length ≤ 2147483648 →
      wabt_interp_executor_run_export exec module export_name args_data
          args_data.length heap =
        (heap.length,
         heap ++ [exec.RunExportByName module export_name
            (args_data.map convert_typed_value_ffi_to_wabt)]) := by
  intro exec module export_name args_data heap h
  unfold wabt_interp_executor_run_export
  rw [← intRepr_zero]
  rw [runExportLoop_spec args_data args_data.length h rfl args_data.length 0 []
    (args_data.length + 1) (by omega) (by omega)]
  simp

/-- Witness for C4 (amended): a two-argument call hands the engine both
decoded arguments in order. -/
theorem run_export_marshals_args_in_order_witness :
    wabt_interp_executor_run_export echoExecutor ⟨0⟩ "add"
        [⟨ValueType.I32, 2⟩, ⟨ValueType.I32, 3⟩] 2 [] =
      (0, [⟨InterpResult.Ok, [⟨WabtType.I32, 2⟩, ⟨WabtType.I32, 3⟩]⟩]) := by
  have h := run_export_marshals_args_in_order echoExecutor ⟨0⟩ "add"
    [⟨ValueType.I32, 2⟩, ⟨ValueType.I32, 3⟩] [] (by decide)
  simpa [echoExecutor, convert_typed_value_ffi_to_wabt] using h

/-- Truncation behaviour behind the C4 counterexample, for any argument count
in `(2^31, 2^64 - 2^31]`: run against the echoing executor on an empty heap,
the `ExecResult` the caller's handle designates holds exactly `2^31` values —
the `int` loop index wrapped and the loop exited after `2^31` pushes. -/
theorem run_export_truncation_general :
    ∀ (module : InterpModule) (export_name : String)
      (args_data : List TypedValue) (args_len : Nat),
      2147483648 < args_len → args_len ≤ 18446744071562067968 →
      2147483648 ≤ args_data.length →
      ((wabt_interp_executor_run_export echoExecutor module export_name
          args_data args_len []).2.getD 0 default).values.length =
        2147483648 := by
  intro module export_name args_data args_len h1 h2 h3
  unfold wabt_interp_executor_run_export
  rw [← intRepr_zero]
  rw [runExportLoop_wrap args_data args_len h1 h2 h3 2147483648 0 []
    (args_len + 1) (by omega) (by omega)]
  simp [echoExecutor]
  omega

/-- Counterexample for C4 as stated: with `args_len = 2^31 + 1` (a value the
`size_t` parameter represents), the signed 32-bit loop index wraps after
`2^31` iterations and the loop exits early, so the engine receives a vector
of `2^31` values — not `2^31 + 1`.  Observed through an executor echoing its
argument vector into the result values. -/
theorem run_export_truncates_args_beyond_int_range :
    ((wabt_interp_executor_run_export echoExecutor ⟨0⟩ "f"
        (List.replicate 2147483649 ⟨ValueType.I32, 7⟩) 2147483649 []).2.getD 0
      default).values.length ≠ 2147483649 := by
  rw [run_export_truncation_general ⟨0⟩ "f"
    (List.replicate 2147483649 ⟨ValueType.I32, 7⟩) 2147483649 (by omega)
    (by omega) (by rw [List.length_replicate]; omega)]
  omega

/-- C7: `wabt_interp_read_binary` builds its options with `read_debug_names`
set from the caller's flag (C `int` to `bool`: nonzero is true), makes a
single call to the decoder with the caller's environment, buffer, sink and
out-module slot, and returns the decoder's result unchanged — so a decoder
`Error` on a malformed binary is returned as `Error`. -/
theorem read_binary_delegates_to_decoder :
    ∀ (ReadBinaryInterp : EngineReadBinary) (env : Environment)
      (data : List Nat) (size : Nat) (read_debug_names : Int)
      (error_handler : ErrorSink),
      wabt_interp_read_binary ReadBinaryInterp env data size read_debug_names
          error_handler =
        ReadBinaryInterp env data size ⟨read_debug_names != 0⟩ error_handler ∧
      ((ReadBinaryInterp env data size ⟨read_debug_names != 0⟩
          error_handler).1 = ResultEnum.Error →
        (wabt_interp_read_binary ReadBinaryInterp env data size
            read_debug_names error_handler).1 = ResultEnum.Error) := by
  intro ReadBinaryInterp env data size read_debug_names error_handler
  exact ⟨rfl, fun h => h⟩

/-- Witness for C7: a decoder rejecting its input makes `read_binary` return
`Error`, with the debug-names flag `1` decoded to `true`. -/
theorem read_binary_delegates_to_decoder_witness :
    (wabt_interp_read_binary
        (fun _ _ _ options sink =>
          (if options.read_debug_names then ResultEnum.Error else ResultEnum.Error,
           sink ++ ["bad magic"], none))
        ⟨[]⟩ [0, 97, 115, 109] 4 1 []).1 = ResultEnum.Error :=
  (read_binary_delegates_to_decoder
    (fun _ _ _ options sink =>
      (if options.read_debug_names then ResultEnum.Error else ResultEnum.Error,
       sink ++ ["bad magic"], none))
    ⟨[]⟩ [0, 97, 115, 109] 4 1 []).2 (by simp)

/-- C8 counterexample: the shim contains no exception handler, so an
engine-internal fault raised during `run_export` (here an allocation failure
raised by the engine) escapes across the boundary as an exception instead of
being converted to an `Error` status. -/
theorem engine_fault_escapes_boundary :
    wabt_interp_executor_run_export_exc
        ⟨fun _ _ _ => Except.error EngineFault.badAlloc⟩ ⟨0⟩ "f" [] 0 [] =
      Except.error EngineFault.badAlloc := rfl

/-- C8 as amended: the boundary installs no handler — an exception the engine
raises during `run_export` propagates to the caller unchanged, and the shim
returns normally (allocating the result) exactly when the engine returns
normally; engine faults are surfaced as `Error` only when the engine itself
reports them through its result status. -/
theorem boundary_propagates_engine_exceptions :
    ∀ (exec : ExecutorExc) (module : InterpModule) (export_name : String)
      (args_data : List TypedValue) (args_len : Nat) (heap : List ExecResult),
      (∀ f : EngineFault,
        exec.RunExportByName module export_name
            (runExportLoop (args_len + 1) 0 args_data args_len []) =
          Except.error f →
        wabt_interp_executor_run_export_exc exec module export_name args_data
            args_len heap = Except.error f) ∧
      (∀ r : ExecResult,
        exec.RunExportByName module export_name
            (runExportLoop (args_len + 1) 0 args_data args_len []) =
          Except.ok r →
        wabt_interp_executor_run_export_exc exec module export_name args_data
            args_len heap = Except.ok (heap.length, heap ++ [r])) := by
  intro exec module export_name args_data args_len heap
  constructor
  · intro f h
    simp [wabt_interp_executor_run_export_exc, h]
  · intro r h
    simp [wabt_interp_executor_run_export_exc, h]

/-- Witness for C8 (amended): a logic fault raised by the engine propagates
unchanged out of `run_export`. -/
theorem boundary_propagates_engine_exceptions_witness :
    wabt_interp_executor_run_export_exc
        ⟨fun _ _ _ => Except.error EngineFault.logicError⟩ ⟨1⟩ "g" [] 0 [] =
      Except.error EngineFault.logicError :=
  (boundary_propagates_engine_exceptions
    ⟨fun _ _ _ => Except.error EngineFault.logicError⟩ ⟨1⟩ "g" [] 0 []).1
    EngineFault.logicError rfl

/-- C9 counterexample: the shim's `extern "C"` surface has no module-level
name-resolution entry point — `wabt_resolve_names_module` is not among the
exported boundary functions. -/
theorem no_module_level_resolution_export :
    "wabt_resolve_names_module" ∉ boundaryExports := by decide

/-- C9 as amended: the only name-resolution operation the boundary provides
is the script-level `wabt_resolve_names_script`, which forwards the lexer,
parsed script and caller-owned sink to the engine's name-resolution pass and
returns its result code unchanged; no single-module variant exists. -/
theorem resolution_surface_is_script_only :
    "wabt_resolve_names_script" ∈ boundaryExports ∧
    ∀ (ResolveNamesScript : EngineResolveNamesScript) (lexer : WastLexer)
      (script : Script) (error_handler : ErrorSink),
      wabt_resolve_names_script ResolveNamesScript lexer script error_handler =
        ResolveNamesScript lexer script error_handler :=
  ⟨by decide, fun _ _ _ _ => rfl⟩

/-- C10: the three `ExecResult` observers are read-only and deterministic:
each leaves the heap of results untouched, and repeated calls with the same
handle and index return equal answers. -/
theorem exec_result_observers_readonly_deterministic :
    ∀ (heap : List ExecResult) (handle index : Nat),
      (wabt_interp_exec_result_get_result_st handle heap).2 = heap ∧
      (wabt_interp_exec_result_get_return_size_st handle heap).2 = heap ∧
      (wabt_interp_exec_result_get_return_st handle index heap).2 = heap ∧
      (wabt_interp_exec_result_get_result_st handle
          (wabt_interp_exec_result_get_result_st handle heap).2).1 =
        (wabt_interp_exec_result_get_result_st handle heap).1 ∧
      (wabt_interp_exec_result_get_return_size_st handle
          (wabt_interp_exec_result_get_return_size_st handle heap).2).1 =
        (wabt_interp_exec_result_get_return_size_st handle heap).1 ∧
      (wabt_interp_exec_result_get_return_st handle index
          (wabt_interp_exec_result_get_return_st handle index heap).2).1 =
        (wabt_interp_exec_result_get_return_st handle index heap).1 :=
  fun _ _ _ => ⟨rfl, rfl, rfl, rfl, rfl, rfl⟩
